import Mathlib

/-!
Verification of the JC024 SunStudio LCD driver (`SunLCD` class).

The driver is shallowly embedded: the mutable attributes of a `SunLCD`
instance become the fields of `SunState`, method calls become functions
`SunState → ... → SunState × result`, and the serial transport is modelled
explicitly — bytes written appear as a returned `wire` string, and bytes
available for reading at each poll attempt are supplied as a schedule
`polls : List (List Char)` (the chunk `polls.getD k []` is what
`ser.read` would drain during the k-th poll of the retry loop).
Python integers are `ℤ` (or `ℕ` for the always-nonnegative sizes,
addresses and counters), Python byte strings are `List Char` / `String`.
-/

set_option maxRecDepth 100000

/-- Python `str.isspace` characters relevant to `str.strip()`. -/
def pyIsSpace (c : Char) : Bool :=
  c = ' ' || c = '\t' || c = '\n' || c = '\r' || c = '\x0b' || c = '\x0c'

/-- Python `str.strip()`: drop whitespace from both ends. -/
def stripChars (l : List Char) : List Char :=
  ((l.dropWhile pyIsSpace).reverse.dropWhile pyIsSpace).reverse

/-- The mutable attributes of a `SunLCD` instance (set in `__init__`,
lines 44-55 of the source). The `serial.Serial` handle itself is external
and has no state we track beyond what the functions return. -/
structure SunState where
  ok : Bool
  response_body : String
  buf : List Char
  cursor : ℤ × ℤ
  img_list : List (ℕ × (ℕ × ℕ))
  img_offset : ℕ
  font_list : List (List (Char × ℕ))
  current_orientation : ℕ
  standard_width : ℕ
  standard_height : ℕ
  deriving Repr, DecidableEq

/-- Class constant `SunLCD.VERTICAL = 0`. -/
def VERTICAL : ℕ := 0

/-- Class constant `SunLCD.HORIZONTAL = 1`. -/
def HORIZONTAL : ℕ := 1

/-- The attribute assignments of `SunLCD.__init__` (source lines 44-55).
The constructor afterwards writes `"\r\n"` and performs the `Reset()` /
`Background()` exchanges; those mutate only `ok`, `response_body` and
`buf`, never the cursor, the registries or the allocation offset. -/
def initState (width height : ℕ) : SunState :=
  { ok := false
    response_body := ""
    buf := []
    cursor := (0, 0)
    img_list := []
    img_offset := 2097152
    font_list := []
    current_orientation := VERTICAL
    standard_width := width
    standard_height := height }

/-- The byte-draining loop of `ReadBack` (source lines 73-80): consume the
available chunk one byte at a time; a line-feed byte (10) emits the
stripped pending buffer as one complete response line and resets the
buffer, any other byte is appended to the buffer.  Returns the emitted
lines in order together with the final pending buffer. -/
def readBackLoop : List Char → List Char → List String × List Char
  | [], buf => ([], buf)
  | c :: rest, buf =>
    if c = '\n' then
      let pr := readBackLoop rest []
      (String.mk (stripChars buf) :: pr.1, pr.2)
    else
      readBackLoop rest (buf ++ [c])

/-- The classification loop of `ReadBack` (source lines 85-88): a line
equal to `"OK"` sets the `ok` flag; every line overwrites
`response_body`. -/
def classify (st : SunState) (responses : List String) : SunState :=
  responses.foldl
    (fun s r =>
      { s with
        ok := if r = "OK" then true else s.ok
        response_body := r })
    st

/-- `SunLCD.ReadBack` (source lines 67-90): drain the available bytes
(`chunk`), split into complete lines; with no complete line return
`none`, otherwise classify every line and return `some true`. -/
def ReadBack (st : SunState) (chunk : List Char) : SunState × Option Bool :=
  let pr := readBackLoop chunk st.buf
  let st' := { st with buf := pr.2 }
  if pr.1.isEmpty then (st', none)
  else (classify st' pr.1, some true)

/-- Result of one `send_serial` call: the final state, the boolean
returned, and the bytes written to the transport. -/
structure SendResult where
  state : SunState
  success : Bool
  wire : String
  deriving Repr, DecidableEq

/-- The retry loop of `send_serial` (source lines 102-109): up to `fuel`
attempts (10 in the source), each sleeping 100 ms and then draining the
bytes that have arrived meanwhile (`polls.getD k []` for the k-th
attempt); the first attempt whose `ReadBack` reports a response ends the
loop with `true`, exhausting the budget yields `false`. -/
def sendLoop : ℕ → SunState → List (List Char) → SunState × Bool
  | 0, st, _ => (st, false)
  | Nat.succ n, st, polls =>
    let pr := ReadBack st (polls.headD [])
    match pr.2 with
    | some _ => (pr.1, true)
    | none => sendLoop n pr.1 polls.tail

/-- `SunLCD.send_serial` (source lines 92-109): reset the `ok` flag and
`response_body`, write the command followed by CRLF, then poll up to 10
times. -/
def send_serial (st : SunState) (cmd : String) (polls : List (List Char)) :
    SendResult :=
  let st0 := { st with ok := false, response_body := "" }
  let pr := sendLoop 10 st0 polls
  { state := pr.1, success := pr.2, wire := cmd ++ "\r\n" }

/-- `SunLCD.ListImage` (source lines 374-384): reserve `w*h*2` bytes at
the current offset, append the descriptor `[offset, size]`, advance the
offset, return the new entry's index. -/
def ListImage (st : SunState) (size : ℕ × ℕ) : SunState × ℕ :=
  let byte_len := size.1 * size.2 * 2
  let st' :=
    { st with
      img_list := st.img_list ++ [(st.img_offset, size)]
      img_offset := st.img_offset + byte_len }
  (st', st'.img_list.length - 1)

/-- A whole sequence of `ListImage` registrations, in order. -/
def registerImages (st : SunState) : List (ℕ × ℕ) → SunState
  | [] => st
  | s :: rest => registerImages (ListImage st s).1 rest

/-- Total number of bytes a list of sizes reserves. -/
def sumBytes (sizes : List (ℕ × ℕ)) : ℕ :=
  (sizes.map fun s => s.1 * s.2 * 2).sum

/-- The image descriptors a run of registrations starting at offset `off`
appends: addresses are the partial sums of the byte lengths. -/
def allocAddrs (off : ℕ) : List (ℕ × ℕ) → List (ℕ × (ℕ × ℕ))
  | [] => []
  | s :: rest => (off, s) :: allocAddrs (off + s.1 * s.2 * 2) rest

/-- One byte past the end of the range an image descriptor occupies. -/
def entryEnd (e : ℕ × (ℕ × ℕ)) : ℕ :=
  e.1 + e.2.1 * e.2.2 * 2

/-- Python `int()` on an exact numeric value: truncation toward zero. -/
def pyInt (q : ℚ) : ℤ :=
  if q < 0 then -⌊-q⌋ else ⌊q⌋

/-- The backlight byte `SunLCD.Brightness` computes (source lines
208-214): `int((1.0 - float(level))*255)` clamped to [0, 255]. -/
def brightnessByte (l : ℚ) : ℤ :=
  let bl0 := pyInt ((1 - l) * 255)
  let bl1 := if bl0 < 0 then 0 else bl0
  if bl1 > 255 then 255 else bl1

/-- `SunLCD.Brightness` (source lines 201-216). The argument is what the
caller passed: `none` models a value `float()` rejects (the `except`
branch returns `False` before anything is sent), `some level` an exact
numeric value (every input the claims mention is exactly representable,
so rational arithmetic coincides with the Python float arithmetic).
The third component is the wire written, `none` when nothing was sent. -/
def Brightness (st : SunState) (level : Option ℚ) (polls : List (List Char)) :
    SunState × Bool × Option String :=
  match level with
  | none => (st, false, none)
  | some l =>
    let sr := send_serial st ("BL(" ++ toString (brightnessByte l) ++ ")") polls
    (sr.state, sr.success, some sr.wire)

/-- `SunLCD.Line` (source lines 229-239). -/
def Line (st : SunState) (origin destination : ℤ × ℤ) (color : ℤ)
    (polls : List (List Char)) : SendResult :=
  send_serial st
    ("PL(" ++ toString origin.1 ++ "," ++ toString origin.2 ++ ","
      ++ toString destination.1 ++ "," ++ toString destination.2 ++ ","
      ++ toString color ++ ")")
    polls

/-- `SunLCD.MoveTo` (source lines 343-357): a 2-element tuple/list sets
the two cursor fields in place and returns `True`, anything else returns
`False`. A position is passed as the list of its elements, so the
isinstance test reduces to the length test. -/
def MoveTo (st : SunState) (position : List ℤ) : SunState × Bool :=
  if position.length = 2 then
    ({ st with cursor := (position.getD 0 0, position.getD 1 0) }, true)
  else
    (st, false)

/-- `SunLCD.LineTo` (source lines 359-371): draw a line from the current
cursor to the position, then move the cursor there. An invalid position
falls off the function body (Python returns `None`, modelled `none`, with
nothing sent); a failed draw returns `False` without moving the cursor.
The third component is the wire written by the draw. -/
def LineTo (st : SunState) (position : List ℤ) (color : ℤ)
    (polls : List (List Char)) : SunState × Option Bool × Option String :=
  if position.length = 2 then
    let sr := Line st st.cursor (position.getD 0 0, position.getD 1 0) color polls
    if sr.success = false then (sr.state, some false, some sr.wire)
    else
      let mr := MoveTo sr.state position
      (mr.1, some mr.2, some sr.wire)
  else
    (st, none, none)

/-- `SunLCD.RawImage` (source lines 165-176). -/
def RawImage (st : SunState) (address : ℕ) (position : ℤ × ℤ)
    (size : ℕ × ℕ) (transparent : ℕ) (polls : List (List Char)) :
    SendResult :=
  send_serial st
    ("FSIMG(" ++ toString address ++ "," ++ toString position.1 ++ ","
      ++ toString position.2 ++ "," ++ toString size.1 ++ ","
      ++ toString size.2 ++ "," ++ toString transparent ++ ")")
    polls

/-- Python list subscription `l[i]` with a possibly negative index:
negative indices count from the end, out of range raises `IndexError`
(modelled `none`). -/
def pyGet {α : Type} (l : List α) (i : ℤ) : Option α :=
  if 0 ≤ i then l.get? i.toNat
  else if i.natAbs ≤ l.length then l.get? (l.length - i.natAbs)
  else none

/-- Assignment `d[c] = v` on a Python dict kept as an insertion-ordered
association list: an existing key keeps its place with the new value, a
new key is appended. -/
def dictInsert (d : List (Char × ℕ)) (c : Char) (v : ℕ) : List (Char × ℕ) :=
  if d.any (fun p => p.1 = c) then
    d.map (fun p => if p.1 = c then (c, v) else p)
  else d ++ [(c, v)]

/-- Python `c in d` and `d[c]` on the association list. -/
def dictGet (d : List (Char × ℕ)) (c : Char) : Option ℕ :=
  (d.find? (fun p => p.1 = c)).map (fun p => p.2)

/-- The glyph-registration loop of `ListFont` (source lines 398-404):
one `ListImage` call per character of the list, duplicates included,
the map keeping the last ImageID assigned to a character. -/
def listFontLoop (char_size : ℕ × ℕ) :
    List Char → SunState → List (Char × ℕ) → SunState × List (Char × ℕ)
  | [], st, font => (st, font)
  | c :: rest, st, font =>
    let pr := ListImage st char_size
    listFontLoop char_size rest pr.1 (dictInsert font c pr.2)

/-- `SunLCD.ListFont` (source lines 388-407): build the character map,
append it to the font registry, return its index. -/
def ListFont (st : SunState) (char_size : ℕ × ℕ) (char_list : List Char) :
    SunState × ℕ :=
  let pr := listFontLoop char_size char_list st []
  let st' := { pr.1 with font_list := pr.1.font_list ++ [pr.2] }
  (st', st'.font_list.length - 1)

/-- The glyph command `TextFont` appends for one character (source line
465), trailing semicolon included. -/
def fsimgCmd (address : ℕ) (x y : ℤ) (w h : ℕ) (transparent : ℕ) : String :=
  "FSIMG(" ++ toString address ++ "," ++ toString x ++ "," ++ toString y
    ++ "," ++ toString w ++ "," ++ toString h ++ ","
    ++ toString transparent ++ ");"

/-- The draw-cursor advance of `TextFont` (source lines 469-476): move
right by the glyph width; when afterwards `x >= lcd_w - w`, wrap to the
next line, and when then `y >= lcd_h - h`, wrap back to the top. -/
def advanceCursor (lcd_w lcd_h : ℤ) (w h : ℕ) (x y : ℤ) : ℤ × ℤ :=
  let x1 := x + w
  if x1 ≥ lcd_w - w then
    let y1 := y + h
    (0, if y1 ≥ lcd_h - h then 0 else y1)
  else (x1, y)

/-- The glyph loop of `TextFont` (source lines 452-491). `flushOk k` is
the boolean `send_serial` would return for the k-th flush of this call
(the transport schedule abstracted to its outcome — the loop reads
nothing else of the channel). Returns the transmissions actually flushed,
in order, and the boolean `TextFont` returns; `none` models the
`IndexError` of a font-map entry outside `img_list` (impossible for fonts
built by `ListFont`). -/
def textFontLoop (img_list : List (ℕ × (ℕ × ℕ))) (font : List (Char × ℕ))
    (lcd_w lcd_h : ℤ) (transparent : ℕ) (flushOk : ℕ → Bool) :
    List Char → ℤ → ℤ → ℕ → String → ℕ → Option (List String × Bool)
  | [], _, _, _, send_str, flushIdx =>
    if send_str.length > 0 then some ([send_str], flushOk flushIdx)
    else some ([], true)
  | c :: rest, x, y, i, send_str, flushIdx =>
    match dictGet font c with
    | none =>
      textFontLoop img_list font lcd_w lcd_h transparent flushOk
        rest x y i send_str flushIdx
    | some char_img_id =>
      match img_list.get? char_img_id with
      | none => none
      | some img_info =>
        let w := img_info.2.1
        let h := img_info.2.2
        let send_str' := send_str ++ fsimgCmd img_info.1 x y w h transparent
        let p := advanceCursor lcd_w lcd_h w h x y
        let i' := i + 1
        if i' ≥ 16 then
          if flushOk flushIdx = false then some ([send_str'], false)
          else
            match textFontLoop img_list font lcd_w lcd_h transparent flushOk
                rest p.1 p.2 0 "" (flushIdx + 1) with
            | none => none
            | some pr => some (send_str' :: pr.1, pr.2)
        else
          textFontLoop img_list font lcd_w lcd_h transparent flushOk
            rest p.1 p.2 i' send_str' flushIdx

/-- The body of `TextFont` after the font lookup (source lines 441-491):
logical width/height from the orientation (swapped when horizontal), then
the glyph loop from the given origin with an empty batch. -/
def textFontBody (st : SunState) (font : List (Char × ℕ)) (position : ℤ × ℤ)
    (text : List Char) (transparent : ℕ) (flushOk : ℕ → Bool) :
    Option (List String × Bool) :=
  let lcd_w : ℤ :=
    if st.current_orientation = HORIZONTAL then st.standard_height
    else st.standard_width
  let lcd_h : ℤ :=
    if st.current_orientation = HORIZONTAL then st.standard_width
    else st.standard_height
  textFontLoop st.img_list font lcd_w lcd_h transparent flushOk
    text position.1 position.2 0 "" 0

/-- `SunLCD.TextFont` (source lines 424-491): font IDs greater than
`len(font_list) - 1` fail the validation and return `False` with nothing
sent; any other ID is looked up by Python subscription (negative IDs
count from the end, IndexError is `none`) and the glyph loop runs. -/
def TextFont (st : SunState) (font_id : ℤ) (position : ℤ × ℤ)
    (text : List Char) (transparent : ℕ) (flushOk : ℕ → Bool) :
    Option (List String × Bool) :=
  if font_id > (st.font_list.length : ℤ) - 1 then some ([], false)
  else
    match pyGet st.font_list font_id with
    | none => none
    | some font => textFontBody st font position text transparent flushOk

/-- `SunLCD.ShowImage` (source lines 410-422): image IDs greater than
`len(img_list) - 1` fail the validation and return `False` with nothing
sent; any other ID is looked up by Python subscription (negative IDs
count from the end, IndexError is `none`) and `RawImage` transmits. -/
def ShowImage (st : SunState) (image_id : ℤ) (position : ℤ × ℤ)
    (transparent : ℕ) (polls : List (List Char)) :
    Option (SunState × Bool × Option String) :=
  if image_id > (st.img_list.length : ℤ) - 1 then some (st, false, none)
  else
    match pyGet st.img_list image_id with
    | none => none
    | some img_info =>
      let sr := RawImage st img_info.1 position img_info.2 transparent polls
      some (sr.state, sr.success, some sr.wire)

/-- Number of characters of `text` the font knows: exactly the glyph
commands `TextFont` emits. -/
def glyphCount (font : List (Char × ℕ)) (text : List Char) : ℕ :=
  (text.filter (fun c => (dictGet font c).isSome)).length

/-- Number of transmissions `TextFont` performs for `g` glyph commands
when every flush succeeds: one per full batch of 16 plus one for a
nonempty remainder. -/
def numFlushes (g : ℕ) : ℕ :=
  if g = 0 then 0 else (g + 15) / 16

/-- Every ImageID a font map mentions is a valid index of the image
registry (true of every font `ListFont` builds). -/
def fontIdsValid (img_list : List (ℕ × (ℕ × ℕ)))
    (font : List (Char × ℕ)) : Prop :=
  ∀ p ∈ font, p.2 < img_list.length

/-- Semicolon count of a batch string: one per glyph command, since the
numeric arguments never contain a semicolon. -/
def countSemis (s : String) : ℕ :=
  s.data.count ';'

/-- A fresh session after two 16×16 image registrations. -/
def twoImgState : SunState :=
  registerImages (initState 240 320) [(16, 16), (16, 16)]

/-- A session on a 32-pixel-wide display with one single-glyph 16×16
image font registered. -/
def fontState32 : SunState :=
  (ListFont (initState 32 320) (16, 16) ['a']).1

/-- A session on a 240-pixel-wide display with one single-glyph 16×16
image font registered. -/
def fontState240 : SunState :=
  (ListFont (initState 240 320) (16, 16) ['a']).1

theorem registerImages_img_offset (sizes : List (ℕ × ℕ)) :
    ∀ st : SunState,
      (registerImages st sizes).img_offset = st.img_offset + sumBytes sizes := by
  induction sizes with
  | nil => intro st; simp [registerImages, sumBytes]
  | cons s rest ih =>
    intro st
    simp [registerImages, ih, ListImage, sumBytes, List.map_cons, List.sum_cons,
      Nat.add_assoc]

theorem registerImages_img_list (sizes : List (ℕ × ℕ)) :
    ∀ st : SunState,
      (registerImages st sizes).img_list
        = st.img_list ++ allocAddrs st.img_offset sizes := by
  induction sizes with
  | nil => intro st; simp [registerImages, allocAddrs]
  | cons s rest ih =>
    intro st
    simp [registerImages, ih, ListImage, allocAddrs, List.append_assoc]

theorem allocAddrs_addr_le (sizes : List (ℕ × ℕ)) :
    ∀ off : ℕ, ∀ e ∈ allocAddrs off sizes, off ≤ e.1 := by
  induction sizes with
  | nil => intro off e he; simp [allocAddrs] at he
  | cons s rest ih =>
    intro off e he
    simp only [allocAddrs, List.mem_cons] at he
    rcases he with h | h
    · subst h; exact le_refl _
    · exact le_trans (Nat.le_add_right _ _) (ih _ e h)

theorem allocAddrs_pairwise (sizes : List (ℕ × ℕ)) :
    ∀ off : ℕ,
      List.Pairwise (fun a b => entryEnd a ≤ b.1) (allocAddrs off sizes) := by
  induction sizes with
  | nil => intro off; simp [allocAddrs]
  | cons s rest ih =>
    intro off
    refine List.Pairwise.cons ?_ (ih _)
    intro e he
    exact allocAddrs_addr_le rest _ e he

/-- Claim C3: every image registration reserves exactly `w*h*2` bytes and
advances the allocation cursor by exactly that amount; after a sequence of
registrations from a fresh session the cursor equals the base offset
2097152 plus the sum of all the byte lengths; the cursor never decreases,
increases strictly for positive sizes, and the assigned byte ranges are
pairwise non-overlapping (each entry ends at or before the next begins);
no operation frees a range (descriptors are only appended). -/
theorem ListImage_alloc_spec (st : SunState) (sizes : List (ℕ × ℕ))
    (s : ℕ × ℕ) (w h : ℕ) (hpos : 0 < s.1 * s.2) :
    (ListImage st s).1.img_offset = st.img_offset + s.1 * s.2 * 2
    ∧ (ListImage st s).1.img_list = st.img_list ++ [(st.img_offset, s)]
    ∧ (registerImages (initState w h) sizes).img_offset
        = 2097152 + sumBytes sizes
    ∧ st.img_offset ≤ (registerImages st sizes).img_offset
    ∧ st.img_offset < (ListImage st s).1.img_offset
    ∧ (registerImages st sizes).img_list
        = st.img_list ++ allocAddrs st.img_offset sizes
    ∧ List.Pairwise (fun a b => entryEnd a ≤ b.1)
        (allocAddrs st.img_offset sizes) := by
  refine ⟨rfl, rfl, ?_, ?_, ?_, registerImages_img_list sizes st,
    allocAddrs_pairwise sizes st.img_offset⟩
  · rw [registerImages_img_offset]; rfl
  · rw [registerImages_img_offset]; exact Nat.le_add_right _ _
  · show st.img_offset < st.img_offset + s.1 * s.2 * 2
    have : 0 < s.1 * s.2 * 2 := Nat.mul_pos hpos (by norm_num)
    omega

/-- Witness for `ListImage_alloc_spec` at a concrete session and size. -/
theorem ListImage_alloc_spec_witness :
    (0 : ℕ) < 16 * 16
    ∧ (ListImage (initState 240 320) (16, 16)).1.img_offset
        = (initState 240 320).img_offset + 16 * 16 * 2 := by
  refine ⟨by norm_num, ?_⟩
  exact (ListImage_alloc_spec (initState 240 320) [] (16, 16) 240 320
    (by norm_num)).1

/-- Claim C4 counterexample: on a fresh session the second 16×16 image
registration is assigned memory address 2097664 (= 2097152 + 16·16·2),
not 2097168 as claimed. -/
theorem second_image_addr_cex :
    ((ListImage (ListImage (initState 240 320) (16, 16)).1 (16, 16)).1.img_list.getD
        1 (0, (0, 0))).1 = 2097664
    ∧ (2097664 : ℕ) ≠ 2097168 := by
  constructor
  · rfl
  · decide

/-- Claim C4 (amended): on a fresh session, registering a 16×16 image
returns ImageID 0 with address 2097152, and a second 16×16 registration
returns ImageID 1 with address 2097664 (the first address plus the
16·16·2 = 512 reserved bytes). -/
theorem fresh_session_two_images :
    (ListImage (initState 240 320) (16, 16)).2 = 0
    ∧ ((ListImage (initState 240 320) (16, 16)).1.img_list.getD 0 (0, (0, 0))).1
        = 2097152
    ∧ (ListImage (ListImage (initState 240 320) (16, 16)).1 (16, 16)).2 = 1
    ∧ ((ListImage (ListImage (initState 240 320) (16, 16)).1 (16, 16)).1.img_list.getD
        1 (0, (0, 0))).1 = 2097664 := by
  refine ⟨rfl, rfl, rfl, rfl⟩

theorem readBackLoop_fst_nil_iff (chunk : List Char) :
    ∀ buf : List Char, (readBackLoop chunk buf).1 = [] ↔ '\n' ∉ chunk := by
  induction chunk with
  | nil => intro buf; simp [readBackLoop]
  | cons c rest ih =>
    intro buf
    by_cases hc : c = '\n'
    · subst hc
      simp [readBackLoop]
    · simp only [readBackLoop, if_neg hc, ih, List.mem_cons]
      constructor
      · intro h hor
        rcases hor with h1 | h2
        · exact hc h1.symm
        · exact h h2
      · intro h hmem
        exact h (Or.inr hmem)

theorem ReadBack_yields (st : SunState) (chunk : List Char) :
    (ReadBack st chunk).2 = if '\n' ∈ chunk then some true else none := by
  unfold ReadBack
  by_cases h : '\n' ∈ chunk
  · have hne : ¬(readBackLoop chunk st.buf).1 = [] := by
      rw [readBackLoop_fst_nil_iff]; simpa using h
    simp [h, List.isEmpty_iff, hne]
  · have hnil : (readBackLoop chunk st.buf).1 = [] := by
      rw [readBackLoop_fst_nil_iff]; exact h
    simp [h, List.isEmpty_iff, hnil]

theorem ReadBack_none_state (st : SunState) (chunk : List Char)
    (h : (ReadBack st chunk).2 = none) :
    (ReadBack st chunk).1.ok = st.ok
    ∧ (ReadBack st chunk).1.response_body = st.response_body := by
  unfold ReadBack at *
  by_cases he : (readBackLoop chunk st.buf).1.isEmpty
  · simp [he]
  · simp [he] at h

theorem getD_tail (polls : List (List Char)) (k : ℕ) :
    polls.tail.getD k [] = polls.getD (k + 1) [] := by
  cases polls <;> simp [List.getD]

theorem headD_eq_getD_zero (polls : List (List Char)) :
    polls.headD [] = polls.getD 0 [] := by
  cases polls <;> rfl

theorem sendLoop_succ_eq (n : ℕ) (st : SunState) (polls : List (List Char)) :
    sendLoop (n + 1) st polls
      = match (ReadBack st (polls.headD [])).2 with
        | some _ => ((ReadBack st (polls.headD [])).1, true)
        | none => sendLoop n (ReadBack st (polls.headD [])).1 polls.tail := rfl

theorem sendLoop_success_iff (n : ℕ) :
    ∀ (st : SunState) (polls : List (List Char)),
      (sendLoop n st polls).2 = true ↔ ∃ k < n, '\n' ∈ polls.getD k [] := by
  induction n with
  | zero => intro st polls; simp [sendLoop]
  | succ n ih =>
    intro st polls
    have hy := ReadBack_yields st (polls.headD [])
    by_cases h0 : '\n' ∈ polls.headD []
    · rw [if_pos h0] at hy
      have hres : (sendLoop (n + 1) st polls).2 = true := by
        rw [sendLoop_succ_eq, hy]
      constructor
      · intro _
        exact ⟨0, Nat.succ_pos n, by rwa [← headD_eq_getD_zero]⟩
      · intro _; exact hres
    · rw [if_neg h0] at hy
      simp only [sendLoop, hy]
      rw [ih]
      constructor
      · rintro ⟨k, hk, hmem⟩
        rw [getD_tail] at hmem
        exact ⟨k + 1, Nat.succ_lt_succ hk, hmem⟩
      · rintro ⟨k, hk, hmem⟩
        cases k with
        | zero =>
          rw [← headD_eq_getD_zero] at hmem
          exact absurd hmem h0
        | succ k =>
          refine ⟨k, Nat.lt_of_succ_lt_succ hk, ?_⟩
          rwa [getD_tail]

theorem sendLoop_timeout_state (n : ℕ) :
    ∀ (st : SunState) (polls : List (List Char)),
      (sendLoop n st polls).2 = false →
      (sendLoop n st polls).1.ok = st.ok
      ∧ (sendLoop n st polls).1.response_body = st.response_body := by
  induction n with
  | zero => intro st polls _; exact ⟨rfl, rfl⟩
  | succ n ih =>
    intro st polls hfalse
    have hy := ReadBack_yields st (polls.headD [])
    by_cases h0 : '\n' ∈ polls.headD []
    · rw [if_pos h0] at hy
      rw [sendLoop_succ_eq, hy] at hfalse
      exact Bool.noConfusion hfalse
    · rw [if_neg h0] at hy
      have hpres := ReadBack_none_state st (polls.headD []) hy
      simp only [sendLoop, hy] at hfalse ⊢
      have := ih (ReadBack st (polls.headD [])).1 polls.tail hfalse
      exact ⟨this.1.trans hpres.1, this.2.trans hpres.2⟩

/-- Claim C1: `send_serial` first resets the acknowledgement flag and the
status text (the prior values are irrelevant), writes the command followed
by CRLF to the transport, and polls at most 10 times; it returns `true`
exactly when some of the 10 drained chunks completes at least one line
(whether or not that line is `"OK"`), and returns `false` — a value, not
an exception — when no line arrives, in which case the flag and status
remain reset. -/
theorem send_serial_spec (st : SunState) (cmd : String)
    (polls : List (List Char)) :
    send_serial st cmd polls
      = send_serial { st with ok := false, response_body := "" } cmd polls
    ∧ (send_serial st cmd polls).wire = cmd ++ "\r\n"
    ∧ ((send_serial st cmd polls).success = true
        ↔ ∃ k < 10, '\n' ∈ polls.getD k [])
    ∧ ((send_serial st cmd polls).success = false →
        (send_serial st cmd polls).state.ok = false
        ∧ (send_serial st cmd polls).state.response_body = "") := by
  refine ⟨rfl, rfl, ?_, ?_⟩
  · exact sendLoop_success_iff 10 _ polls
  · intro hfalse
    exact sendLoop_timeout_state 10 _ polls hfalse

/-- Witness for `send_serial_spec`: with an empty transport schedule the
call times out with the flag and status reset. -/
theorem send_serial_spec_witness :
    (send_serial (initState 240 320) "RESET" []).wire = "RESET" ++ "\r\n"
    ∧ (send_serial (initState 240 320) "RESET" []).state.ok = false
    ∧ (send_serial (initState 240 320) "RESET" []).state.response_body = "" := by
  obtain ⟨-, h2, -, h4⟩ := send_serial_spec (initState 240 320) "RESET" []
  obtain ⟨ha, hb⟩ := h4 (by decide)
  exact ⟨h2, ha, hb⟩

/-- Claim C2: feeding the Response Reader `"OK\n"` and then
`"FOO\nBAR\n"` emits the lines `"OK"`, then `"FOO"` and `"BAR"` (the
pending buffer up to each line feed, stripped, remainder kept in the
buffer); the acknowledgement flag is true only after `"OK"` was seen
(feeding only the second chunk leaves it false), and every line overwrites
the status text, which ends as `"BAR"`. -/
theorem ReadBack_two_chunks :
    (readBackLoop "OK\n".data []).1 = ["OK"]
    ∧ (readBackLoop "FOO\nBAR\n".data (readBackLoop "OK\n".data []).2).1
        = ["FOO", "BAR"]
    ∧ (ReadBack (initState 240 320) "OK\n".data).1.ok = true
    ∧ (ReadBack (initState 240 320) "OK\n".data).1.response_body = "OK"
    ∧ (ReadBack (ReadBack (initState 240 320) "OK\n".data).1
        "FOO\nBAR\n".data).1.ok = true
    ∧ (ReadBack (ReadBack (initState 240 320) "OK\n".data).1
        "FOO\nBAR\n".data).1.response_body = "BAR"
    ∧ (ReadBack (ReadBack (initState 240 320) "OK\n".data).1
        "FOO\nBAR\n".data).1.buf = []
    ∧ (ReadBack (initState 240 320) "FOO\nBAR\n".data).1.ok = false := by
  decide


theorem brightnessByte_eval (l v : ℚ) (n : ℤ) (hv : (1 - l) * 255 = v)
    (hnn : ¬ v < 0) (hfl : ⌊v⌋ = n) (hn0 : ¬ n < 0) :
    brightnessByte l = if n > 255 then 255 else n := by
  simp only [brightnessByte, pyInt, hv]
  rw [if_neg hnn, hfl, if_neg hn0]

theorem Brightness_wire (st : SunState) (l : ℚ) (polls : List (List Char)) :
    (Brightness st (some l) polls).2.2
      = some ("BL(" ++ toString (brightnessByte l) ++ ")" ++ "\r\n") := rfl

/-- Claim C7 counterexample: at level 1/2 (exactly representable in
binary floating point, so the Python float arithmetic is exact and the
rational model coincides with it) the code computes backlight byte
`int(127.5) = 127` and sends `BL(127)`, while the claimed formula
`round((1 − 1/2)·255)` gives 128. -/
theorem Brightness_round_cex :
    brightnessByte (1 / 2) = 127
    ∧ round ((1 - (1 / 2 : ℚ)) * 255) = 128
    ∧ (Brightness (initState 240 320) (some (1 / 2)) []).2.2
        = some "BL(127)\r\n"
    ∧ (127 : ℤ) ≠ 128 := by
  have hb : brightnessByte (1 / 2) = 127 := by
    rw [brightnessByte_eval (1 / 2) (255 / 2) 127 (by norm_num) (by norm_num)
      (by norm_num) (by norm_num)]
    norm_num
  refine ⟨hb, ?_, ?_, by decide⟩
  · rw [round_eq]
    norm_num
  · rw [Brightness_wire, hb]
    rfl

/-- Claim C7 (amended): the backlight byte is the truncation toward zero
of (1 − level)·255, clamped to [0, 255] — not the rounding. For levels in
[0, 1] that truncation is the floor and the clamps are inert, and the
endpoints hold as claimed: level 0.0 sends byte 255, level 1.0 sends
byte 0. -/
theorem Brightness_byte_spec (st : SunState) (polls : List (List Char))
    (l : ℚ) (h0 : 0 ≤ l) (h1 : l ≤ 1) :
    (Brightness st (some l) polls).2.2
        = some ("BL(" ++ toString (brightnessByte l) ++ ")" ++ "\r\n")
    ∧ brightnessByte l = ⌊(1 - l) * 255⌋
    ∧ 0 ≤ brightnessByte l ∧ brightnessByte l ≤ 255
    ∧ brightnessByte 0 = 255
    ∧ brightnessByte 1 = 0 := by
  have hq0 : (0 : ℚ) ≤ (1 - l) * 255 := by nlinarith
  have hq255 : (1 - l) * 255 ≤ 255 := by nlinarith
  have hfl0 : (0 : ℤ) ≤ ⌊(1 - l) * 255⌋ := Int.floor_nonneg.2 hq0
  have hfl255 : ⌊(1 - l) * 255⌋ ≤ 255 := by
    have h := Int.floor_le_floor (α := ℚ) hq255
    simpa using h
  have hbb : brightnessByte l = ⌊(1 - l) * 255⌋ := by
    rw [brightnessByte_eval l ((1 - l) * 255) ⌊(1 - l) * 255⌋ rfl
      (not_lt.2 hq0) rfl (not_lt.2 hfl0)]
    rw [if_neg (not_lt.2 hfl255)]
  have h255 : brightnessByte 0 = 255 := by
    rw [brightnessByte_eval 0 255 255 (by norm_num) (by norm_num)
      (by norm_num) (by norm_num)]
    norm_num
  have hz : brightnessByte 1 = 0 := by
    rw [brightnessByte_eval 1 0 0 (by norm_num) (by norm_num)
      (by norm_num) (by norm_num)]
    norm_num
  refine ⟨Brightness_wire st l polls, hbb, ?_, ?_, h255, hz⟩
  · rw [hbb]; exact hfl0
  · rw [hbb]; exact hfl255

/-- Witness for `Brightness_byte_spec` at level 0. -/
theorem Brightness_byte_spec_witness :
    (0 : ℚ) ≤ 0 ∧ (0 : ℚ) ≤ 1
    ∧ (Brightness (initState 240 320) (some 0) []).2.2
        = some ("BL(" ++ toString (brightnessByte 0) ++ ")" ++ "\r\n") := by
  refine ⟨le_refl 0, by norm_num, ?_⟩
  exact (Brightness_byte_spec (initState 240 320) [] 0 (le_refl 0)
    (by norm_num)).1

/-- Claim C8 counterexample: −1 is numeric — `float(-1)` succeeds — so
`Brightness(-1)` computes byte int(510) = 510, clamps it to 255 and
transmits `BL(255)`; it does not report failure without sending. -/
theorem Brightness_neg_one_cex :
    (Brightness (initState 240 320) (some (-1)) []).2.2 = some "BL(255)\r\n"
    ∧ (some "BL(255)\r\n" : Option String) ≠ none := by
  have hb : brightnessByte (-1) = 255 := by
    rw [brightnessByte_eval (-1) 510 510 (by norm_num) (by norm_num)
      (by norm_num) (by norm_num)]
    norm_num
  refine ⟨?_, by decide⟩
  rw [Brightness_wire, hb]
  rfl

/-- Claim C8 (amended): `Brightness(-1)` does not fail — the byte clamps
to 255 and `BL(255)` is transmitted, the boolean returned being the
channel outcome; only input that `float()` rejects (a non-numeric value,
modelled `none`) makes the method return `False` with nothing sent. -/
theorem Brightness_invalid_spec :
    (Brightness (initState 240 320) (some (-1)) []).2.2 = some "BL(255)\r\n"
    ∧ ∀ (st : SunState) (polls : List (List Char)),
        Brightness st none polls = (st, false, none) := by
  have hb : brightnessByte (-1) = 255 := by
    rw [brightnessByte_eval (-1) 510 510 (by norm_num) (by norm_num)
      (by norm_num) (by norm_num)]
    norm_num
  refine ⟨?_, fun st polls => rfl⟩
  rw [Brightness_wire, hb]
  rfl

theorem LineTo_wire (st : SunState) (pos : List ℤ) (color : ℤ)
    (polls : List (List Char)) (hpos : pos.length = 2) :
    (LineTo st pos color polls).2.2
      = some (Line st st.cursor (pos.getD 0 0, pos.getD 1 0) color polls).wire := by
  simp only [LineTo, if_pos hpos]
  by_cases hs :
      (Line st st.cursor (pos.getD 0 0, pos.getD 1 0) color polls).success = false
  · rw [if_pos hs]
  · rw [if_neg hs]

theorem LineTo_cursor (st : SunState) (pos : List ℤ) (color : ℤ)
    (polls : List (List Char)) (hpos : pos.length = 2)
    (hok : (LineTo st pos color polls).2.1 = some true) :
    (LineTo st pos color polls).1.cursor = (pos.getD 0 0, pos.getD 1 0) := by
  simp only [LineTo, if_pos hpos] at hok ⊢
  by_cases hs :
      (Line st st.cursor (pos.getD 0 0, pos.getD 1 0) color polls).success = false
  · rw [if_pos hs] at hok
    simp at hok
  · rw [if_neg hs]
    simp [MoveTo, hpos]

/-- Claim C9: `MoveTo` is idempotent on the cursor for every valid
2-element position — a second identical call leaves the cursor exactly
where one call put it; after `MoveTo((5,5))`, `LineTo((8,5))` transmits
`PL(5,5,8,5,15)` (the line from (5,5) to (8,5)) and, once the draw got a
response, moves the cursor to (8,5), so a subsequent `LineTo` to (2,7)
is issued as `PL(8,5,2,7,15)`, starting from (8,5). -/
theorem MoveTo_LineTo_spec (st : SunState) (p : List ℤ)
    (polls polls2 : List (List Char)) (hp : p.length = 2) :
    (MoveTo (MoveTo st p).1 p).1.cursor = (MoveTo st p).1.cursor
    ∧ (MoveTo st p).1.cursor = (p.getD 0 0, p.getD 1 0)
    ∧ (MoveTo st [5, 5]).1.cursor = (5, 5)
    ∧ (LineTo (MoveTo st [5, 5]).1 [8, 5] 15 polls).2.2
        = some ("PL(5,5,8,5,15)" ++ "\r\n")
    ∧ ((LineTo (MoveTo st [5, 5]).1 [8, 5] 15 polls).2.1 = some true →
        (LineTo (MoveTo st [5, 5]).1 [8, 5] 15 polls).1.cursor = (8, 5)
        ∧ (LineTo (LineTo (MoveTo st [5, 5]).1 [8, 5] 15 polls).1
            [2, 7] 15 polls2).2.2 = some ("PL(8,5,2,7,15)" ++ "\r\n")) := by
  refine ⟨by simp [MoveTo, hp], by simp [MoveTo, hp], by simp [MoveTo], ?_, ?_⟩
  · rw [LineTo_wire _ _ _ _ (by decide)]
    rfl
  · intro hres
    have hc := LineTo_cursor (MoveTo st [5, 5]).1 [8, 5] 15 polls (by decide) hres
    refine ⟨hc, ?_⟩
    rw [LineTo_wire _ _ _ _ (by decide), Line, hc]
    rfl

/-- Witness for `MoveTo_LineTo_spec` at a concrete session, with a
transport schedule on which the draw receives a response line. -/
theorem MoveTo_LineTo_spec_witness :
    ([3, 4] : List ℤ).length = 2
    ∧ (MoveTo (initState 240 320) [3, 4]).1.cursor = ((3 : ℤ), (4 : ℤ))
    ∧ (LineTo (MoveTo (initState 240 320) [5, 5]).1 [8, 5] 15
        [['\n']]).1.cursor = (8, 5) := by
  obtain ⟨h1, h2, h3, h4, h5⟩ :=
    MoveTo_LineTo_spec (initState 240 320) [3, 4] [['\n']] [] (by decide)
  exact ⟨by decide, h2, (h5 (by decide)).1⟩

theorem pyGet_neg {α : Type} (l : List α) (i : ℤ) (hneg : i < 0)
    (hle : i.natAbs ≤ l.length) :
    pyGet l i = l.get? (l.length - i.natAbs) := by
  unfold pyGet
  rw [if_neg (not_le.2 hneg), if_pos hle]

/-- Claim C10: the ID validation of `ShowImage` and `TextFont` rejects
exactly the IDs strictly greater than registry length − 1 (returning
`False` with nothing sent); a negative ID whose magnitude does not exceed
the registry length passes the validation and Python subscription selects
the entry counted from the end — ID −1 is the most recently registered
image or font. -/
theorem negative_id_spec (st : SunState) (id : ℤ) (pos : ℤ × ℤ) (t : ℕ)
    (polls : List (List Char)) (text : List Char) (flushOk : ℕ → Bool)
    (hneg : id < 0) :
    (id.natAbs ≤ st.img_list.length →
      ∃ img, st.img_list.get? (st.img_list.length - id.natAbs) = some img
        ∧ ShowImage st id pos t polls
            = some ((RawImage st img.1 pos img.2 t polls).state,
                (RawImage st img.1 pos img.2 t polls).success,
                some (RawImage st img.1 pos img.2 t polls).wire))
    ∧ (id.natAbs ≤ st.font_list.length →
      ∃ font, st.font_list.get? (st.font_list.length - id.natAbs) = some font
        ∧ TextFont st id pos text t flushOk
            = textFontBody st font pos text t flushOk)
    ∧ (∀ j : ℤ, j > (st.img_list.length : ℤ) - 1 →
        ShowImage st j pos t polls = some (st, false, none))
    ∧ (∀ j : ℤ, j > (st.font_list.length : ℤ) - 1 →
        TextFont st j pos text t flushOk = some ([], false)) := by
  have habs : 0 < id.natAbs := Int.natAbs_pos.2 (ne_of_lt hneg)
  refine ⟨?_, ?_, ?_, ?_⟩
  · intro hle
    have hlen1 : 1 ≤ st.img_list.length := le_trans habs hle
    have hvne : ¬ id > (st.img_list.length : ℤ) - 1 := by
      have hc : (1 : ℤ) ≤ (st.img_list.length : ℤ) := by exact_mod_cast hlen1
      omega
    have hidx : st.img_list.length - id.natAbs < st.img_list.length := by
      omega
    refine ⟨st.img_list.get ⟨st.img_list.length - id.natAbs, hidx⟩,
      List.get?_eq_get hidx, ?_⟩
    unfold ShowImage
    rw [if_neg hvne, pyGet_neg _ _ hneg hle, List.get?_eq_get hidx]
  · intro hle
    have hlen1 : 1 ≤ st.font_list.length := le_trans habs hle
    have hvne : ¬ id > (st.font_list.length : ℤ) - 1 := by
      have hc : (1 : ℤ) ≤ (st.font_list.length : ℤ) := by exact_mod_cast hlen1
      omega
    have hidx : st.font_list.length - id.natAbs < st.font_list.length := by
      omega
    refine ⟨st.font_list.get ⟨st.font_list.length - id.natAbs, hidx⟩,
      List.get?_eq_get hidx, ?_⟩
    unfold TextFont
    rw [if_neg hvne, pyGet_neg _ _ hneg hle, List.get?_eq_get hidx]
  · intro j hj
    unfold ShowImage
    rw [if_pos hj]
  · intro j hj
    unfold TextFont
    rw [if_pos hj]

/-- Witness for `negative_id_spec`: with two registered images, ID −1
selects the second one (address 2097664). -/
theorem negative_id_spec_witness :
    (-1 : ℤ) < 0
    ∧ ∃ img, twoImgState.img_list.get?
          (twoImgState.img_list.length - (-1 : ℤ).natAbs) = some img
        ∧ ShowImage twoImgState (-1) (0, 0) 0 []
            = some ((RawImage twoImgState img.1 (0, 0) img.2 0 []).state,
                (RawImage twoImgState img.1 (0, 0) img.2 0 []).success,
                some (RawImage twoImgState img.1 (0, 0) img.2 0 []).wire) := by
  refine ⟨by decide, ?_⟩
  exact (negative_id_spec twoImgState (-1) (0, 0) 0 [] [] (fun _ => true)
    (by decide)).1 (by decide)

/-- Claim C6 counterexample: with 16×16 glyphs on a 32-pixel-wide logical
display the wrap rule `x >= 32 − 16` already fires after the first glyph
(x has advanced to 16 ≥ 16), so the second glyph of the 10-character
string is drawn at (0,16) — a fresh line after ONE glyph — not at (16,0)
where a 2-glyphs-per-line layout would put it. -/
theorem TextFont_wrap_cex :
    advanceCursor 32 320 16 16 0 0 = (0, 16)
    ∧ ((0 : ℤ), (16 : ℤ)) ≠ ((16 : ℤ), (0 : ℤ))
    ∧ TextFont fontState32 0 (0, 0) (List.replicate 10 'a') 0 (fun _ => true)
        = some (["FSIMG(2097152,0,0,16,16,0);FSIMG(2097152,0,16,16,16,0);FSIMG(2097152,0,32,16,16,0);FSIMG(2097152,0,48,16,16,0);FSIMG(2097152,0,64,16,16,0);FSIMG(2097152,0,80,16,16,0);FSIMG(2097152,0,96,16,16,0);FSIMG(2097152,0,112,16,16,0);FSIMG(2097152,0,128,16,16,0);FSIMG(2097152,0,144,16,16,0);"],
            true) := by
  exact ⟨by decide, by decide, by decide⟩

/-- Claim C6 (amended): with glyph width 16 on a 32-pixel-wide logical
display the wrap condition `x >= (32 − 16)` holds after every glyph drawn
at any x ≥ 0, so each line holds exactly ONE glyph before x resets to 0
and y advances by the glyph height; the 10 glyphs of the scenario are
drawn at (0,0), (0,16), …, (0,144). -/
theorem TextFont_wrap_spec (lcd_h : ℤ) (x y : ℤ) (hx : 0 ≤ x) :
    advanceCursor 32 lcd_h 16 16 x y
      = (0, if y + 16 ≥ lcd_h - 16 then 0 else y + 16)
    ∧ advanceCursor 32 320 16 16 0 0 = (0, 16)
    ∧ TextFont fontState32 0 (0, 0) (List.replicate 10 'a') 0 (fun _ => true)
        = some (["FSIMG(2097152,0,0,16,16,0);FSIMG(2097152,0,16,16,16,0);FSIMG(2097152,0,32,16,16,0);FSIMG(2097152,0,48,16,16,0);FSIMG(2097152,0,64,16,16,0);FSIMG(2097152,0,80,16,16,0);FSIMG(2097152,0,96,16,16,0);FSIMG(2097152,0,112,16,16,0);FSIMG(2097152,0,128,16,16,0);FSIMG(2097152,0,144,16,16,0);"],
            true) := by
  refine ⟨?_, by decide, by decide⟩
  simp only [advanceCursor]
  rw [if_pos (by push_cast; omega)]
  push_cast
  ring_nf

/-- Witness for `TextFont_wrap_spec` at x = 0, y = 0, lcd_h = 320. -/
theorem TextFont_wrap_spec_witness :
    (0 : ℤ) ≤ 0
    ∧ advanceCursor 32 320 16 16 0 0
        = (0, if (0 : ℤ) + 16 ≥ 320 - 16 then 0 else 0 + 16) :=
  ⟨le_refl 0, (TextFont_wrap_spec 320 0 0 (le_refl 0)).1⟩

theorem fsimgCmd_length_pos (a : ℕ) (x y : ℤ) (w h t : ℕ) :
    0 < (fsimgCmd a x y w h t).length := by
  unfold fsimgCmd
  rw [String.length_append]
  have h2 : (");").length = 2 := rfl
  omega

theorem glyphCount_cons_none (font : List (Char × ℕ)) (c : Char)
    (rest : List Char) (h : dictGet font c = none) :
    glyphCount font (c :: rest) = glyphCount font rest := by
  simp [glyphCount, List.filter_cons, h]

theorem glyphCount_cons_some (font : List (Char × ℕ)) (c : Char)
    (rest : List Char) (cid : ℕ) (h : dictGet font c = some cid) :
    glyphCount font (c :: rest) = glyphCount font rest + 1 := by
  simp [glyphCount, List.filter_cons, h]

theorem dictGet_lt_of_valid (img_list : List (ℕ × (ℕ × ℕ)))
    (font : List (Char × ℕ)) (hvalid : fontIdsValid img_list font)
    (c : Char) (cid : ℕ) (h : dictGet font c = some cid) :
    cid < img_list.length := by
  unfold dictGet at h
  obtain ⟨p, hp, hpc⟩ : ∃ p, List.find? (fun p => p.1 = c) font = some p
      ∧ p.2 = cid := by
    cases hf : List.find? (fun p => p.1 = c) font with
    | none => rw [hf] at h; simp at h
    | some p => rw [hf] at h; simp at h; exact ⟨p, rfl, h⟩
  have hmem : p ∈ font := List.mem_of_find?_eq_some hp
  rw [← hpc]
  exact hvalid p hmem

theorem numFlushes_small (i : ℕ) (h1 : 1 ≤ i) (h2 : i < 16) :
    numFlushes i = 1 := by
  unfold numFlushes
  rw [if_neg (by omega)]
  omega

theorem numFlushes_batch (g : ℕ) :
    numFlushes (16 + g) = numFlushes g + 1 := by
  unfold numFlushes
  by_cases hg : g = 0
  · subst hg
    norm_num
  · rw [if_neg (by omega), if_neg hg]
    omega

theorem textFontLoop_count (img_list : List (ℕ × (ℕ × ℕ)))
    (font : List (Char × ℕ)) (lcd_w lcd_h : ℤ) (tr : ℕ)
    (hvalid : fontIdsValid img_list font) :
    ∀ (text : List Char) (x y : ℤ) (i : ℕ) (s : String) (fidx : ℕ),
      i < 16 → (i = 0 ↔ s.length = 0) →
      ∃ sends,
        textFontLoop img_list font lcd_w lcd_h tr (fun _ => true)
            text x y i s fidx = some (sends, true)
        ∧ sends.length = numFlushes (i + glyphCount font text) := by
  intro text
  induction text with
  | nil =>
    intro x y i s fidx hi hinv
    by_cases h0 : i = 0
    · subst h0
      have hs : s.length = 0 := hinv.1 rfl
      refine ⟨[], ?_, ?_⟩
      · simp [textFontLoop, hs]
      · simp [glyphCount, numFlushes]
    · have hs : 0 < s.length := by
        rcases Nat.eq_zero_or_pos s.length with h | h
        · exact absurd (hinv.2 h) h0
        · exact h
      refine ⟨[s], ?_, ?_⟩
      · simp [textFontLoop, hs]
      · simp only [glyphCount, List.filter_nil, List.length_nil, Nat.add_zero,
          List.length_singleton]
        exact (numFlushes_small i (by omega) hi).symm
  | cons c rest ih =>
    intro x y i s fidx hi hinv
    cases hc : dictGet font c with
    | none =>
      obtain ⟨sends, heq, hlen⟩ := ih x y i s fidx hi hinv
      refine ⟨sends, ?_, ?_⟩
      · simpa [textFontLoop, hc] using heq
      · rw [glyphCount_cons_none font c rest hc]
        exact hlen
    | some cid =>
      have hlt : cid < img_list.length :=
        dictGet_lt_of_valid img_list font hvalid c cid hc
      have hget2 : img_list[cid]? = some img_list[cid] :=
        List.getElem?_eq_getElem hlt
      have hgc := glyphCount_cons_some font c rest cid hc
      by_cases h16 : i + 1 ≥ 16
      · have hi15 : i = 15 := by omega
        obtain ⟨sends', heq', hlen'⟩ :=
          ih (advanceCursor lcd_w lcd_h img_list[cid].2.1
              img_list[cid].2.2 x y).1
            (advanceCursor lcd_w lcd_h img_list[cid].2.1
              img_list[cid].2.2 x y).2
            0 "" (fidx + 1) (by omega) (by simp)
        refine ⟨(s ++ fsimgCmd img_list[cid].1 x y
            img_list[cid].2.1 img_list[cid].2.2 tr) :: sends', ?_, ?_⟩
        · simp [textFontLoop, hc, hget2, h16, heq']
        · simp only [List.length_cons, hlen', Nat.zero_add]
          rw [hgc, hi15]
          have h15 : 15 + (glyphCount font rest + 1)
              = 16 + glyphCount font rest := by omega
          rw [h15, numFlushes_batch]
      · have hinv' : i + 1 = 0
            ↔ (s ++ fsimgCmd img_list[cid].1 x y
                img_list[cid].2.1 img_list[cid].2.2 tr).length = 0 := by
          constructor
          · intro h
            exact absurd h (by omega)
          · intro h
            rw [String.length_append] at h
            have := fsimgCmd_length_pos img_list[cid].1 x y
              img_list[cid].2.1 img_list[cid].2.2 tr
            omega
        obtain ⟨sends, heq, hlen⟩ :=
          ih (advanceCursor lcd_w lcd_h img_list[cid].2.1
              img_list[cid].2.2 x y).1
            (advanceCursor lcd_w lcd_h img_list[cid].2.1
              img_list[cid].2.2 x y).2
            (i + 1)
            (s ++ fsimgCmd img_list[cid].1 x y
              img_list[cid].2.1 img_list[cid].2.2 tr)
            fidx (by omega) hinv'
        refine ⟨sends, ?_, ?_⟩
        · simpa [textFontLoop, hc, hget2, h16] using heq
        · rw [hlen, hgc]
          have hco : i + 1 + glyphCount font rest
              = i + (glyphCount font rest + 1) := by omega
          rw [hco]

theorem textFontLoop_firstFail (img_list : List (ℕ × (ℕ × ℕ)))
    (font : List (Char × ℕ)) (lcd_w lcd_h : ℤ) (tr : ℕ)
    (flushOk : ℕ → Bool) (hvalid : fontIdsValid img_list font) :
    ∀ (text : List Char) (x y : ℤ) (i : ℕ) (s : String) (fidx m : ℕ),
      i < 16 → (i = 0 ↔ s.length = 0) →
      (∀ j, j < m → flushOk (fidx + j) = true) →
      flushOk (fidx + m) = false →
      m + 1 ≤ numFlushes (i + glyphCount font text) →
      ∃ sends,
        textFontLoop img_list font lcd_w lcd_h tr flushOk text x y i s fidx
          = some (sends, false)
        ∧ sends.length = m + 1 := by
  intro text
  induction text with
  | nil =>
    intro x y i s fidx m hi hinv hsucc hfail hm
    have hg : i + glyphCount font [] = i := by simp [glyphCount]
    rw [hg] at hm
    by_cases h0 : i = 0
    · subst h0
      simp [numFlushes] at hm
    · have hs : 0 < s.length := by
        rcases Nat.eq_zero_or_pos s.length with h | h
        · exact absurd (hinv.2 h) h0
        · exact h
      have hm0 : m = 0 := by
        rw [numFlushes_small i (by omega) hi] at hm
        omega
      subst hm0
      rw [Nat.add_zero] at hfail
      refine ⟨[s], ?_, by simp⟩
      simp [textFontLoop, hs, hfail]
  | cons c rest ih =>
    intro x y i s fidx m hi hinv hsucc hfail hm
    cases hc : dictGet font c with
    | none =>
      rw [glyphCount_cons_none font c rest hc] at hm
      obtain ⟨sends, heq, hlen⟩ := ih x y i s fidx m hi hinv hsucc hfail hm
      refine ⟨sends, ?_, hlen⟩
      simpa [textFontLoop, hc] using heq
    | some cid =>
      have hlt : cid < img_list.length :=
        dictGet_lt_of_valid img_list font hvalid c cid hc
      have hget2 : img_list[cid]? = some img_list[cid] :=
        List.getElem?_eq_getElem hlt
      rw [glyphCount_cons_some font c rest cid hc] at hm
      by_cases h16 : i + 1 ≥ 16
      · have hi15 : i = 15 := by omega
        subst hi15
        cases m with
        | zero =>
          rw [Nat.add_zero] at hfail
          refine ⟨[s ++ fsimgCmd img_list[cid].1 x y
            img_list[cid].2.1 img_list[cid].2.2 tr], ?_, by simp⟩
          simp [textFontLoop, hc, hget2, h16, hfail]
        | succ m' =>
          have hok0 : flushOk fidx = true := by
            have h := hsucc 0 (Nat.succ_pos m')
            rwa [Nat.add_zero] at h
          have hsucc' : ∀ j, j < m' → flushOk (fidx + 1 + j) = true := by
            intro j hj
            have h := hsucc (j + 1) (by omega)
            have hidx : fidx + (j + 1) = fidx + 1 + j := by omega
            rwa [hidx] at h
          have hfail' : flushOk (fidx + 1 + m') = false := by
            have hidx : fidx + (m' + 1) = fidx + 1 + m' := by omega
            rwa [hidx] at hfail
          have hm' : m' + 1 ≤ numFlushes (0 + glyphCount font rest) := by
            rw [Nat.zero_add]
            have hb : 15 + (glyphCount font rest + 1)
                = 16 + glyphCount font rest := by omega
            rw [hb, numFlushes_batch] at hm
            omega
          obtain ⟨sends', heq', hlen'⟩ :=
            ih (advanceCursor lcd_w lcd_h img_list[cid].2.1
                img_list[cid].2.2 x y).1
              (advanceCursor lcd_w lcd_h img_list[cid].2.1
                img_list[cid].2.2 x y).2
              0 "" (fidx + 1) m' (by omega) (by simp) hsucc' hfail' hm'
          refine ⟨(s ++ fsimgCmd img_list[cid].1 x y
              img_list[cid].2.1 img_list[cid].2.2 tr) :: sends', ?_, ?_⟩
          · simp [textFontLoop, hc, hget2, h16, hok0, heq']
          · simp [hlen']
      · have hinv' : i + 1 = 0
            ↔ (s ++ fsimgCmd img_list[cid].1 x y
                img_list[cid].2.1 img_list[cid].2.2 tr).length = 0 := by
          constructor
          · intro h
            exact absurd h (by omega)
          · intro h
            rw [String.length_append] at h
            have := fsimgCmd_length_pos img_list[cid].1 x y
              img_list[cid].2.1 img_list[cid].2.2 tr
            omega
        have hm2 : m + 1 ≤ numFlushes (i + 1 + glyphCount font rest) := by
          have hco : i + 1 + glyphCount font rest
              = i + (glyphCount font rest + 1) := by omega
          rw [hco]
          exact hm
        obtain ⟨sends, heq, hlen⟩ :=
          ih (advanceCursor lcd_w lcd_h img_list[cid].2.1
              img_list[cid].2.2 x y).1
            (advanceCursor lcd_w lcd_h img_list[cid].2.1
              img_list[cid].2.2 x y).2
            (i + 1)
            (s ++ fsimgCmd img_list[cid].1 x y
              img_list[cid].2.1 img_list[cid].2.2 tr)
            fidx m (by omega) hinv' hsucc hfail hm2
        refine ⟨sends, ?_, hlen⟩
        simpa [textFontLoop, hc, hget2, h16] using heq

/-- Claim C5 counterexample: an empty text produces zero glyph commands —
fewer than 16 — yet `TextFont` performs ZERO transmissions, not one: the
batch after the loop is empty, nothing is flushed, `True` is returned. -/
theorem TextFont_empty_cex :
    TextFont fontState240 0 (0, 0) [] 0 (fun _ => true) = some ([], true)
    ∧ ([] : List String).length ≠ 1 :=
  ⟨by decide, by decide⟩

/-- Claim C5 (amended): glyph commands accumulate into one string (each
carrying its `;` terminator) flushed as one transmission every 16 glyphs
processed, with a nonempty remainder flushed after the loop. With every
flush answered, a text producing g glyph commands causes exactly
`numFlushes g` transmissions: exactly one when 1 ≤ g < 16, exactly two
when g = 20 (16 glyphs then 4, shown by the semicolon counts of the
concrete run), and — unlike the claim's "fewer than 16" — zero when
g = 0. If ANY flush times out — the first, a later intermediate one, or
the final partial-batch one — while the m flushes before it succeeded,
`TextFont` returns `False` immediately and the transmissions are exactly
those m batches plus the failed one (nothing rolled back, nothing after
it sent): concretely, 20 glyphs whose second flush (the final 4-glyph
batch) times out yield batches [16, 4] with result `False`, and 40 glyphs
whose second flush (an intermediate 16-glyph batch) times out yield
[16, 16] with result `False`, the last 8 glyphs never transmitted. -/
theorem TextFont_batching_spec (st : SunState) (font_id : ℤ)
    (pos : ℤ × ℤ) (text : List Char) (tr : ℕ) (font : List (Char × ℕ))
    (hval : ¬ font_id > (st.font_list.length : ℤ) - 1)
    (hfont : pyGet st.font_list font_id = some font)
    (hvalid : fontIdsValid st.img_list font) :
    (∃ sends, TextFont st font_id pos text tr (fun _ => true)
        = some (sends, true)
      ∧ sends.length = numFlushes (glyphCount font text))
    ∧ (∀ (flushOk : ℕ → Bool) (m : ℕ),
        (∀ j, j < m → flushOk j = true) →
        flushOk m = false →
        m + 1 ≤ numFlushes (glyphCount font text) →
        ∃ sends, TextFont st font_id pos text tr flushOk
            = some (sends, false)
          ∧ sends.length = m + 1)
    ∧ (∀ g : ℕ, 1 ≤ g → g < 16 → numFlushes g = 1)
    ∧ numFlushes 20 = 2
    ∧ numFlushes 0 = 0
    ∧ (TextFont fontState240 0 (0, 0) (List.replicate 20 'a') 0
        (fun _ => true)).map (fun pr => (pr.1.map countSemis, pr.2))
        = some ([16, 4], true)
    ∧ (TextFont fontState240 0 (0, 0) (List.replicate 20 'a') 0
        (fun k => k == 0)).map (fun pr => (pr.1.map countSemis, pr.2))
        = some ([16, 4], false)
    ∧ (TextFont fontState240 0 (0, 0) (List.replicate 40 'a') 0
        (fun k => k == 0)).map (fun pr => (pr.1.map countSemis, pr.2))
        = some ([16, 16], false) := by
  have hbody : ∀ fOk : ℕ → Bool,
      TextFont st font_id pos text tr fOk
        = textFontBody st font pos text tr fOk := by
    intro fOk
    unfold TextFont
    rw [if_neg hval, hfont]
  refine ⟨?_, ?_, numFlushes_small, by decide, by decide, by decide,
    by decide, by decide⟩
  · obtain ⟨sends, heq, hlen⟩ :=
      textFontLoop_count st.img_list font
        (if st.current_orientation = HORIZONTAL then (st.standard_height : ℤ)
          else (st.standard_width : ℤ))
        (if st.current_orientation = HORIZONTAL then (st.standard_width : ℤ)
          else (st.standard_height : ℤ))
        tr hvalid text pos.1 pos.2 0 "" 0 (by omega) (by simp)
    refine ⟨sends, ?_, ?_⟩
    · rw [hbody]
      exact heq
    · rw [hlen, Nat.zero_add]
  · intro flushOk m hsucc hfail hm
    have hsucc0 : ∀ j, j < m → flushOk (0 + j) = true := by
      intro j hj
      rw [Nat.zero_add]
      exact hsucc j hj
    have hfail0 : flushOk (0 + m) = false := by
      rw [Nat.zero_add]
      exact hfail
    have hm0 : m + 1 ≤ numFlushes (0 + glyphCount font text) := by
      rw [Nat.zero_add]
      exact hm
    obtain ⟨sends, heq, hlen⟩ :=
      textFontLoop_firstFail st.img_list font
        (if st.current_orientation = HORIZONTAL then (st.standard_height : ℤ)
          else (st.standard_width : ℤ))
        (if st.current_orientation = HORIZONTAL then (st.standard_width : ℤ)
          else (st.standard_height : ℤ))
        tr flushOk hvalid text pos.1 pos.2 0 "" 0 m (by omega) (by simp)
        hsucc0 hfail0 hm0
    refine ⟨sends, ?_, hlen⟩
    rw [hbody]
    exact heq

/-- Witness for `TextFont_batching_spec`: a 5-glyph text on a registered
single-character font causes exactly one transmission. -/
theorem TextFont_batching_spec_witness :
    ∃ sends, TextFont fontState240 0 (0, 0) (List.replicate 5 'a') 0
        (fun _ => true) = some (sends, true)
      ∧ sends.length
          = numFlushes (glyphCount [('a', 0)] (List.replicate 5 'a')) := by
  exact (TextFont_batching_spec fontState240 0 (0, 0) (List.replicate 5 'a')
    0 [('a', 0)] (by decide) (by decide)
    (by unfold fontIdsValid; decide)).1
